import Mathlib

/-!
Verification of the angle-arithmetic and schedule-option layers of the
moslem-salat-schedule repository.

The Go `Angle` value type stores a magnitude either as decimal degrees or as a
degree/minute/second triple, together with a separate sign flag and a
representation tag.  Machine `float64` fields are embedded as exact rationals:
every operation the claims exercise is field arithmetic, borrowing and
carrying, so the rational embedding reproduces the source's control flow
exactly.  Functions whose bodies live in the repository but outside the
provided excerpts (`ToDecimal`, `ToMinuteSecond`, `Abs`, `Neg`,
`GreatherThan`, `IsZero`, `prepareConvertMinuteSecond`, the exported
`Add`/`Sub`/`Div` entry points, the symbol constants) are modelled from the
specification and are marked as such in their doc comments.
-/

/-- Representation tag of an angle: decimal degrees, or degree/minute/second.
Mirrors the Go `angleType` enumeration (`Decimal` is the zero value). -/
inductive AngleType where
  | Decimal : AngleType
  | DegreeMinuteSecond : AngleType
deriving DecidableEq, Repr

/-- The Go `Angle` struct: three magnitude fields, a sign flag and the
representation tag (src/angle/angle.go lines 15-22). -/
structure Angle where
  degree : ℚ
  minute : ℚ
  second : ℚ
  neg : Bool
  angType : AngleType
deriving DecidableEq, Repr

/-- The zero value of the Go `Angle` struct. -/
def angleZero : Angle := ⟨0, 0, 0, false, .Decimal⟩

/-- Shorthand for building a decimal-representation angle. -/
def mkDec (d : ℚ) (n : Bool) : Angle := ⟨d, 0, 0, n, .Decimal⟩

/-- Shorthand for building a degree/minute/second angle. -/
def mkDMS (d m s : ℚ) (n : Bool) : Angle := ⟨d, m, s, n, .DegreeMinuteSecond⟩

/-- The degree/minute/second field sum of an angle, in degrees.  This is the
decimal magnitude of an angle whose authoritative group is the DMS triple. -/
def Angle.mag (a : Angle) : ℚ := a.degree + a.minute / 60 + a.second / 3600

/-- The signed decimal value of an angle, reading only the field group that
its representation tag marks as authoritative. -/
def Angle.val (a : Angle) : ℚ :=
  (if a.neg then -1 else 1) *
    (match a.angType with
     | .Decimal => a.degree
     | .DegreeMinuteSecond => a.mag)

/-- Modelled from the spec: `toDecimal()` conversion (§4.1).  A decimal angle
is returned unchanged; a DMS angle collapses its triple into decimal degrees,
preserving the sign flag. -/
def Angle.ToDecimal (a : Angle) : Angle :=
  if a.angType = .Decimal then a
  else ⟨a.mag, 0, 0, a.neg, .Decimal⟩

/-- Modelled from the spec: `toDegreeMinuteSecond()` conversion (§4.1,
round-trip law).  A DMS angle is returned unchanged; a decimal angle is split
into integer degrees, integer minutes and residual seconds, preserving the
sign flag. -/
def Angle.ToMinuteSecond (a : Angle) : Angle :=
  if a.angType = .DegreeMinuteSecond then a
  else
    let d := a.degree
    let deg : ℚ := (⌊d⌋ : ℤ)
    let mRaw : ℚ := (d - deg) * 60
    let m : ℚ := (⌊mRaw⌋ : ℤ)
    let s : ℚ := (mRaw - m) * 60
    ⟨deg, m, s, a.neg, .DegreeMinuteSecond⟩

/-- Modelled from the spec: `toRepresentation(r)` (§4.1), the Go
`ToSpecificType`, dispatching to the two conversions. -/
def Angle.ToSpecificType (a : Angle) : AngleType → Angle
  | .Decimal => a.ToDecimal
  | .DegreeMinuteSecond => a.ToMinuteSecond

/-- Modelled from the spec: `abs()` (§4.1) clears the sign flag. -/
def Angle.Abs (a : Angle) : Angle := { a with neg := false }

/-- Modelled from the spec: `negate()` (§4.1) toggles the sign flag. -/
def Angle.Neg (a : Angle) : Angle := { a with neg := !a.neg }

/-- Modelled from the spec: the Go `GreatherThan` comparison —
`compareMagnitude` combined with the sign flag (§4.1), i.e. the signed
decimal values are compared. -/
def Angle.GreatherThan (a a1 : Angle) : Bool := decide (a1.val < a.val)

/-- Modelled from the spec: `isZero()` — zero magnitude in either
representation; `-0` (sign flag set, zero magnitude) also counts as zero
(§3). -/
def Angle.IsZero (a : Angle) : Bool := decide (a.val = 0)

/-- Modelled from the spec: `prepareConvertMinuteSecond` carry normalization —
seconds of sixty or more roll into minutes and minutes of sixty or more roll
into degrees, leaving minute and second in `[0, 60)` (§4.2, §3). -/
def Angle.prepareConvertMinuteSecond (a : Angle) : Angle :=
  let cs : ℚ := (⌊a.second / 60⌋ : ℤ)
  let second := a.second - 60 * cs
  let minute := a.minute + cs
  let cm : ℚ := (⌊minute / 60⌋ : ℤ)
  let minute' := minute - 60 * cm
  let degree := a.degree + cm
  { a with degree := degree, minute := minute', second := second }

/-- `takeForSub` (src/unnamed/part_000 lines 73-79): borrow one unit from
`upperValue` into `value` (as sixty of the smaller unit); borrowing from a
zero upper field is a no-op. -/
def takeForSub (value upperValue : ℚ) : ℚ × ℚ :=
  if upperValue = 0 then (value, upperValue)
  else (value + 60, upperValue - 1)

/-- `prepareMinuend` (src/unnamed/part_000 lines 81-103): align the minuend's
second and minute fields against the subtrahend's by borrowing before the
field-wise subtraction.  The Go composite literal at the end leaves the sign
flag at its zero value. -/
def Angle.prepareMinuend (a a1 : Angle) : Angle :=
  let s0 := a.second
  let m0 := a.minute
  let d0 := a.degree
  let sm := if s0 < a1.second then takeForSub s0 m0 else (s0, m0)
  let md := if s0 < a1.second ∧ sm.1 = a.second then takeForSub sm.2 d0 else (sm.2, d0)
  let md' := if md.1 < a1.minute then takeForSub md.1 md.2 else md
  ⟨md'.2, md'.1, sm.1, false, .DegreeMinuteSecond⟩

/-- `addToDecimalType` (src/unnamed/part_000 lines 10-19). -/
def addToDecimalType (a ang : Angle) : Angle :=
  let ang := if ang.angType ≠ .Decimal then ang.ToDecimal else ang
  ⟨a.degree + ang.degree, 0, 0, false, .Decimal⟩

/-- `addToMinuteSecondType` (src/unnamed/part_000 lines 21-36). -/
def addToMinuteSecondType (a ang : Angle) : Angle :=
  let ang := if ang.angType ≠ .DegreeMinuteSecond then ang.ToMinuteSecond else ang
  (Angle.mk (a.degree + ang.degree) (a.minute + ang.minute) (a.second + ang.second)
      false .DegreeMinuteSecond).prepareConvertMinuteSecond

/-- The in-place coercion of the subtrahend/addend at the top of the
decimal-representation routines: convert unless already decimal. -/
def decOf (x : Angle) : Angle := if x.angType ≠ .Decimal then x.ToDecimal else x

/-- The in-place coercion of the subtrahend/addend at the top of the
DMS-representation routines: convert unless already DMS. -/
def dmsOf (x : Angle) : Angle := if x.angType ≠ .DegreeMinuteSecond then x.ToMinuteSecond else x

theorem Angle.val_ToDecimal (a : Angle) : a.ToDecimal.val = a.val := by
  unfold Angle.ToDecimal Angle.val Angle.mag
  split <;> rename_i h
  · rfl
  · cases ht : a.angType <;> simp_all

theorem Angle.neg_ToDecimal (a : Angle) : a.ToDecimal.neg = a.neg := by
  unfold Angle.ToDecimal; split <;> rfl

theorem Angle.angType_ToDecimal (a : Angle) : a.ToDecimal.angType = .Decimal := by
  unfold Angle.ToDecimal; split <;> simp_all

theorem Angle.val_ToMinuteSecond (a : Angle) : a.ToMinuteSecond.val = a.val := by
  unfold Angle.ToMinuteSecond Angle.val Angle.mag
  split <;> rename_i h
  · rfl
  · have ht : a.angType = .Decimal := by
      cases hx : a.angType
      · rfl
      · exact absurd hx h
    rw [ht]
    dsimp only
    cases a.neg <;> simp only [if_true, if_false, Bool.false_eq_true, ite_true, ite_false] <;> ring

theorem Angle.neg_ToMinuteSecond (a : Angle) : a.ToMinuteSecond.neg = a.neg := by
  unfold Angle.ToMinuteSecond; split <;> rfl

theorem Angle.angType_ToMinuteSecond (a : Angle) :
    a.ToMinuteSecond.angType = .DegreeMinuteSecond := by
  unfold Angle.ToMinuteSecond; split <;> simp_all

theorem val_decOf (x : Angle) : (decOf x).val = x.val := by
  unfold decOf; split
  · exact x.val_ToDecimal
  · rfl

theorem val_dmsOf (x : Angle) : (dmsOf x).val = x.val := by
  unfold dmsOf; split
  · exact x.val_ToMinuteSecond
  · rfl

theorem neg_dmsOf (x : Angle) : (dmsOf x).neg = x.neg := by
  unfold dmsOf; split
  · exact x.neg_ToMinuteSecond
  · rfl

theorem angType_dmsOf (x : Angle) : (dmsOf x).angType = .DegreeMinuteSecond := by
  unfold dmsOf; split
  · exact x.angType_ToMinuteSecond
  · simp_all

theorem Angle.neg_prepareMinuend (a a1 : Angle) : (a.prepareMinuend a1).neg = false := rfl

theorem Angle.angType_prepareMinuend (a a1 : Angle) :
    (a.prepareMinuend a1).angType = .DegreeMinuteSecond := rfl

/-- Borrowing aligns digits but never changes the minuend's magnitude: the
value of `prepareMinuend`'s result is the minuend's field sum. -/
theorem Angle.val_prepareMinuend (a a1 : Angle) : (a.prepareMinuend a1).val = a.mag := by
  rcases a with ⟨d, m, s, n, t⟩
  have hs60 : ¬ (s + 60 = s) := by intro hh; linarith
  unfold Angle.prepareMinuend takeForSub
  by_cases hc1 : s < a1.second <;> by_cases hm0 : m = 0 <;> by_cases hd0 : d = 0 <;>
    simp only [hc1, hm0, hd0, if_true, if_false, ite_true, ite_false, and_true, and_false,
      true_and, false_and, hs60, and_self, eq_self_iff_true, if_neg, Angle.val, Angle.mag] <;>
    split_ifs <;>
    simp_all [Angle.val, Angle.mag] <;>
    linarith

/-- A non-negative DMS angle's signed value is its field sum. -/
theorem Angle.val_eq_mag (a : Angle) (hn : a.neg = false)
    (ht : a.angType = .DegreeMinuteSecond) : a.val = a.mag := by
  unfold Angle.val; rw [hn, ht]; simp

/-- `subToDecimalType` (src/unnamed/part_000 lines 58-71): coerce the
subtrahend to decimal, swap and negate when the subtrahend is greater,
otherwise subtract the degree fields and take the absolute value. -/
def subToDecimalType (a a1 : Angle) : Angle :=
  if h : (decOf a1).GreatherThan a then (subToDecimalType (decOf a1) a).Neg
  else ⟨|a.degree - (decOf a1).degree|, 0, 0, false, .Decimal⟩
termination_by (if (decOf a1).GreatherThan a then 1 else 0 : Nat)
decreasing_by
  simp only [Angle.GreatherThan, decide_eq_true_eq, val_decOf] at h ⊢
  rw [if_pos h, if_neg (by simpa [val_decOf] using lt_asymm h)]
  omega

/-- Rank used to prove the swap-and-negate recursion of the DMS subtraction
terminating: any call from a converted, sign-cleared state can swap at most
once more, and a dirty state reaches such a state in one step. -/
def subMSRank (a a1 : Angle) : Nat :=
  (if a1.neg = true ∨ a1.angType ≠ .DegreeMinuteSecond then 4
   else if a.neg = true ∨ a.angType ≠ .DegreeMinuteSecond then 2 else 0)
  + (if (dmsOf a1).GreatherThan (a.prepareMinuend (dmsOf a1)) then 1 else 0)

/-- `subToMinuteSecondType` (src/unnamed/part_000 lines 105-122): coerce the
subtrahend to DMS, borrow into the minuend (`prepareMinuend`), swap and
negate when the subtrahend is still greater, otherwise subtract field-wise
with absolute values and normalize the carries. -/
def subToMinuteSecondType (a a1 : Angle) : Angle :=
  if h : (dmsOf a1).GreatherThan (a.prepareMinuend (dmsOf a1)) then
    (subToMinuteSecondType (dmsOf a1) (a.prepareMinuend (dmsOf a1))).Neg
  else
    (Angle.mk |(a.prepareMinuend (dmsOf a1)).degree - (dmsOf a1).degree|
        |(a.prepareMinuend (dmsOf a1)).minute - (dmsOf a1).minute|
        |(a.prepareMinuend (dmsOf a1)).second - (dmsOf a1).second|
        false .DegreeMinuteSecond).prepareConvertMinuteSecond
termination_by subMSRank a a1
decreasing_by
  unfold subMSRank
  by_cases hd : a1.neg = true ∨ a1.angType ≠ .DegreeMinuteSecond
  · rw [if_pos hd, if_pos h]
    have h2 : ¬ ((a.prepareMinuend (dmsOf a1)).neg = true ∨
        (a.prepareMinuend (dmsOf a1)).angType ≠ .DegreeMinuteSecond) := by
      simp [Angle.neg_prepareMinuend, Angle.angType_prepareMinuend]
    rw [if_neg h2]
    split_ifs <;> omega
  · push_neg at hd
    have hneg : a1.neg = false := by simpa using hd.1
    have hty : a1.angType = .DegreeMinuteSecond := hd.2
    have hid : dmsOf a1 = a1 := by unfold dmsOf; rw [hty]; simp
    rw [hid] at h ⊢
    have h2 : ¬ ((a.prepareMinuend a1).neg = true ∨
        (a.prepareMinuend a1).angType ≠ .DegreeMinuteSecond) := by
      simp [Angle.neg_prepareMinuend, Angle.angType_prepareMinuend]
    rw [if_neg (by simp [hneg, hty] : ¬ (a1.neg = true ∨ a1.angType ≠ .DegreeMinuteSecond))]
    rw [if_pos h, if_neg h2]
    have hidp : dmsOf (a.prepareMinuend a1) = a.prepareMinuend a1 := by
      unfold dmsOf; rw [Angle.angType_prepareMinuend]; simp
    have hg2 : ¬ (dmsOf (a.prepareMinuend a1)).GreatherThan
        (a1.prepareMinuend (dmsOf (a.prepareMinuend a1))) = true := by
      rw [hidp]
      simp only [Angle.GreatherThan, decide_eq_true_eq, Angle.val_prepareMinuend]
      simp only [Angle.GreatherThan, decide_eq_true_eq, Angle.val_prepareMinuend] at h
      rw [Angle.val_eq_mag a1 hneg hty] at h
      exact lt_asymm h
    rw [if_neg hg2]
    omega

theorem Angle.neg_ToSpecificType (a : Angle) (t : AngleType) :
    (a.ToSpecificType t).neg = a.neg := by
  cases t
  · exact a.neg_ToDecimal
  · exact a.neg_ToMinuteSecond

theorem Angle.angType_ToSpecificType (a : Angle) (t : AngleType) :
    (a.ToSpecificType t).angType = t := by
  cases t
  · exact a.angType_ToDecimal
  · exact a.angType_ToMinuteSecond

theorem Angle.neg_Abs (a : Angle) : a.Abs.neg = false := rfl

mutual
/-- `addToAugendType` (src/unnamed/part_000 lines 38-56): sign dispatch for
addition — both operands negative: add the absolutes and negate; only the
augend negative: coerce the addend to the augend's representation and
subtract the augend's absolute; only the addend negative: subtract its
absolute; otherwise dispatch on the augend's representation. -/
def addToAugendType (a a1 : Angle) : Angle :=
  if h : a.neg && a1.neg then (addToAugendType a.Abs a1.Abs).Neg
  else if h1 : a.neg then subToMinuendType (a1.ToSpecificType a.angType) a.Abs
  else if h2 : a1.neg then subToMinuendType a a1.Abs
  else if a.angType = .Decimal then addToDecimalType a a1
  else addToMinuteSecondType a a1
termination_by (if a.neg then 1 else 0) + (if a1.neg then 1 else 0)
decreasing_by
  all_goals simp_all [Angle.Abs, Angle.neg_ToSpecificType]

/-- `subToMinuendType` (src/unnamed/part_000 lines 124-142): sign dispatch for
subtraction; its both-negative branch passes `a1.Abs` both as the minuend
source and as the subtrahend, exactly as the Go source does. -/
def subToMinuendType (a a1 : Angle) : Angle :=
  if h : a.neg && a1.neg then subToMinuendType ((a1.Abs).ToSpecificType a.angType) a1.Abs
  else if h1 : a.neg then (addToAugendType a.Abs a1.Abs).Neg
  else if h2 : a1.neg then addToAugendType a.Abs a1.Abs
  else if a1.angType = .Decimal then subToDecimalType a a1
  else subToMinuteSecondType a a1
termination_by (if a.neg then 1 else 0) + (if a1.neg then 1 else 0)
decreasing_by
  all_goals simp_all [Angle.Abs, Angle.neg_ToSpecificType]
end

/-- Modelled from the spec: the exported `Sub` entry point delegates to the
sign dispatch `subToMinuendType` (§4.2). -/
def Angle.Sub (a a1 : Angle) : Angle := subToMinuendType a a1

/-- Modelled from the spec: the exported `Add` entry point delegates to the
sign dispatch `addToAugendType` (§4.2). -/
def Angle.Add (a a1 : Angle) : Angle := addToAugendType a a1

/-- `divToDividendType` (src/unnamed/part_000 lines 144-154): remember the
dividend's representation, convert the dividend to decimal, divide the degree
field by the scalar, and convert back to the remembered representation. -/
def divToDividendType (a : Angle) (d : ℚ) : Angle :=
  let angType := a.angType
  let a' := if a.angType ≠ .Decimal then a.ToDecimal else a
  ({ a' with degree := a'.degree / d }).ToSpecificType angType

/-- The error kinds of the repository's `err` package that the modelled code
reports (§7 of the spec). -/
inductive Err where
  | DateMissing : Err
  | LatitudeMissing : Err
  | LongitudeMissing : Err
  | FajrZenithMissing : Err
  | IshaZenithMissing : Err
  | MazhabMissing : Err
  | DivisionByZero : Err
  | ConstantParsing : Err
deriving DecidableEq, Repr

/-- Modelled from the spec: the exported scalar-division entry point —
"dividing by zero fails with a `DivisionByZero` error" (§4.2 edge cases, §7);
any other scalar is passed on to `divToDividendType`. -/
def Angle.Div (a : Angle) (d : ℚ) : Except Err Angle :=
  if d = 0 then .error .DivisionByZero else .ok (divToDividendType a d)

/-! ### The schedule option layer (src/schedule/option.go) -/

/-- Instants of the Go `time.Time` type, embedded abstractly; `0` plays the
role of the zero value (`IsZero`). -/
abbrev Time := Int

/-- The zero value of `time.Time`. -/
def timeZero : Time := 0

/-- The external periodical enumeration (out of scope for the spec): all the
option layer uses is its `GetDateRange` operation mapping a start date to the
period's date range. -/
structure Periodical where
  getDateRange : Time → Time × Time

/-- Timezone locations (`*time.Location`): the option layer only ever
installs `time.UTC` itself; other locations are abstract. -/
inductive Loc where
  | UTC : Loc
  | other : Nat → Loc
deriving DecidableEq, Repr

/-- The `opt` configuration struct (src/schedule/option.go lines 22-42),
restricted to the fields the modelled operations read or write.  `mazhab` is
the Go enumeration's numeric value, `0` meaning unset; `timezoneLoc = none`
is the nil location; `sunPositions = none` is the nil cached slice. -/
structure Opt where
  dateStart : Time
  dateEnd : Time
  periodical : Periodical
  latitude : Angle
  longitude : Angle
  timezoneLoc : Option Loc
  fajrZenith : Angle
  ishaZenith : Angle
  mazhab : Nat
  sunPositions : Option (List Unit)

/-- The salat enumeration. -/
inductive Salat where
  | Fajr : Salat
  | Sunrise : Salat
  | Dhuhr : Salat
  | Asr : Salat
  | Maghrib : Salat
  | Isha : Salat
deriving DecidableEq, Repr

/-- `SetDatePeriodical` (src/schedule/option.go lines 58-65): derive the date
range from the periodical, remember the periodical, and invalidate the
cached sun positions. -/
def Opt.SetDatePeriodical (o : Opt) (dateStart : Time) (periodical : Periodical) : Opt :=
  let r := periodical.getDateRange dateStart
  { o with dateStart := r.1, dateEnd := r.2, periodical := periodical, sunPositions := none }

/-- `SetPeriodical` (src/schedule/option.go lines 67-73): when the start date
is still the zero value it is replaced by the current time (`now` is the
value `time.Now()` returns at the call), then `SetDatePeriodical` runs. -/
def Opt.SetPeriodical (o : Opt) (now : Time) (periodical : Periodical) : Opt :=
  let o := if o.dateStart = timeZero then { o with dateStart := now } else o
  o.SetDatePeriodical o.dateStart periodical

/-- `ValidateBySalat` (src/schedule/option.go lines 141-175).  The Go method
mutates the receiver through a pointer and returns only an error; the model
returns the updated configuration together with the optional error, in the
source's exact order: date, latitude and longitude checks first, then the
longitude-representation coercion and the UTC default for a nil timezone,
then the per-salat zenith and mazhab checks. -/
def Opt.ValidateBySalat (o : Opt) (salat : Salat) : Opt × Option Err :=
  if o.dateStart = timeZero then (o, some .DateMissing)
  else if o.latitude.IsZero then (o, some .LatitudeMissing)
  else if o.longitude.IsZero then (o, some .LongitudeMissing)
  else
    let o := if o.latitude.angType ≠ o.longitude.angType
             then { o with longitude := o.longitude.ToSpecificType o.latitude.angType } else o
    let o := if o.timezoneLoc = none then { o with timezoneLoc := some .UTC } else o
    if o.fajrZenith.IsZero ∧ salat = .Fajr then (o, some .FajrZenithMissing)
    else if o.ishaZenith.IsZero ∧ salat = .Isha then (o, some .IshaZenithMissing)
    else if o.mazhab = 0 ∧ salat = .Asr then (o, some .MazhabMissing)
    else (o, none)

/-! ### The angle text scanner (src/angle/angle.go) -/

/-- Modelled from the spec: the degree symbol glyph (§6). -/
def DegreeSymbolRune : Char := Char.ofNat 176

/-- Modelled from the spec: the minute symbol glyph (§6). -/
def MinuteSymbolRune : Char := Char.ofNat 39

/-- Modelled from the spec: the second symbol glyph (§6). -/
def SecondSymbolRune : Char := Char.ofNat 34

/-- Modelled from the spec: the negative sign glyph (§6). -/
def NegativeSymbolRune : Char := Char.ofNat 45

/-- Decimal digit value of a character, if it is a digit. -/
def digitVal (c : Char) : Option Nat :=
  if c.isDigit then some (c.toNat - 48) else none

/-- Parse a non-empty all-digit run into a natural number. -/
def parseDigits (l : List Char) : Option Nat :=
  match l with
  | [] => none
  | _ => l.foldl (fun acc c => acc.bind fun n => (digitVal c).map fun d => n * 10 + d) (some 0)

/-- Parse an unsigned JSON number (digits with an optional fraction part)
into an exact rational. -/
def parseUnsigned (l : List Char) : Option ℚ :=
  let intPart := l.takeWhile (fun c => c ≠ Char.ofNat 46)
  let rest := l.dropWhile (fun c => c ≠ Char.ofNat 46)
  match rest with
  | [] => (parseDigits intPart).map (fun n => (n : ℚ))
  | _ :: frac =>
    (parseDigits intPart).bind fun n =>
      (parseDigits frac).map fun f => (n : ℚ) + (f : ℚ) / ((10 : ℚ) ^ frac.length)

/-- Modelled from the spec: `json.Unmarshal` of a number text into a
`float64` field — an optional leading negative sign followed by digits and
an optional fraction; anything else is a parse error. -/
def parseRat (l : List Char) : Option ℚ :=
  match l with
  | c :: rest =>
    if c = NegativeSymbolRune then (parseUnsigned rest).map (fun q => -q)
    else parseUnsigned l
  | [] => none

/-- `json.Unmarshal` into a field, with the error kind the repository's err
package reports for constant parsing. -/
def unmarshalQ (src : List Char) : Except Err ℚ :=
  match parseRat src with
  | some q => .ok q
  | none => .error .ConstantParsing

/-- `fillBySymbol` (src/angle/angle.go lines 24-42): unmarshal the buffered
text into the degree field when the symbol is the degree glyph and into the
minute field when it is the minute glyph; the final unmarshal into the
second field is unconditional, exactly as in the source. -/
def fillBySymbol (d : Angle) (src : List Char) (symbol : Char) : Except Err Angle := do
  let d ←
    if symbol = DegreeSymbolRune then do
      let q ← unmarshalQ src
      pure { d with degree := q }
    else pure d
  let d ←
    if symbol = MinuteSymbolRune then do
      let q ← unmarshalQ src
      pure { d with minute := q }
    else pure d
  let q ← unmarshalQ src
  pure { d with second := q }

/-- `decideFillBySymbol` (src/angle/angle.go lines 44-52): tag the angle as
DMS when the minute or second symbol appears, else as decimal, then fill. -/
def decideFillBySymbol (d : Angle) (src : List Char) (symbol : Char) : Except Err Angle :=
  let d := { d with angType :=
    if symbol = MinuteSymbolRune ∨ symbol = SecondSymbolRune
    then AngleType.DegreeMinuteSecond else AngleType.Decimal }
  fillBySymbol d src symbol

/-- The loop of `scanByString` (src/angle/angle.go lines 60-79): runes that
are not one of the three field symbols are appended to the buffer (which is
never reset); the negative-sign test can only be reached by a rune that is
one of the three symbols; a field symbol fills from the buffer.  The state
carries the angle, the buffer and the last rune seen. -/
def scanLoop (d : Angle) (buff : List Char) (s : Char) :
    List Char → Except Err (Angle × List Char × Char)
  | [] => .ok (d, buff, s)
  | c :: rest =>
    if c ≠ DegreeSymbolRune ∧ c ≠ MinuteSymbolRune ∧ c ≠ SecondSymbolRune then
      scanLoop d (buff ++ [c]) c rest
    else if c = NegativeSymbolRune then
      scanLoop { d with neg := true } buff c rest
    else do
      let d' ← decideFillBySymbol d buff c
      scanLoop d' buff c rest

/-- `scanByString` (src/angle/angle.go lines 54-82): run the loop from the
zero rune and finish with one more `decideFillBySymbol` on the final buffer
and the last rune seen. -/
def scanByString (d : Angle) (src : List Char) : Except Err Angle := do
  let (d, buff, s) ← scanLoop d [] (Char.ofNat 0) src
  decideFillBySymbol d buff s

/-! ### Result-representation lemmas for the subtraction routines -/

theorem Angle.angType_Neg (a : Angle) : a.Neg.angType = a.angType := rfl

theorem Angle.angType_prepareConvertMinuteSecond (a : Angle) :
    a.prepareConvertMinuteSecond.angType = a.angType := rfl

theorem angType_subToDecimalType (a a1 : Angle) :
    (subToDecimalType a a1).angType = .Decimal := by
  induction a, a1 using subToDecimalType.induct with
  | case1 a a1 hg ih => rw [subToDecimalType, dif_pos hg, Angle.angType_Neg]; exact ih
  | case2 a a1 hg => rw [subToDecimalType, dif_neg hg]

theorem angType_subToMinuteSecondType (a a1 : Angle) :
    (subToMinuteSecondType a a1).angType = .DegreeMinuteSecond := by
  induction a, a1 using subToMinuteSecondType.induct with
  | case1 a a1 hg ih => rw [subToMinuteSecondType, dif_pos hg, Angle.angType_Neg]; exact ih
  | case2 a a1 hg =>
    rw [subToMinuteSecondType, dif_neg hg, Angle.angType_prepareConvertMinuteSecond]

/-! ### Claim C1 — division by zero -/

/-- C1: for every angle, dividing by the scalar zero fails with the
`DivisionByZero` error; a zero divisor never silently produces a value. -/
theorem claim_C1_div_by_zero_fails (a : Angle) :
    a.Div 0 = Except.error Err.DivisionByZero := by
  unfold Angle.Div
  simp

/-! ### Claim C2 — same-sign subtraction with two negative operands -/

/-- C2 (failing input): evaluating the code at `a = −10°`, `b = −5°` (both
decimal) yields the zero angle instead of `−5°`: the both-negative branch of
`subToMinuendType` subtracts the subtrahend's absolute value from itself, so
the result's value is `0`, not the `y − x = −5` the claim requires. -/
theorem claim_C2_both_negative_subtraction_collapses_to_zero :
    subToMinuendType (mkDec 10 true) (mkDec 5 true) = mkDec 0 false ∧
    (subToMinuendType (mkDec 10 true) (mkDec 5 true)).val ≠ ((5 : ℚ) - 10) := by
  have h : subToMinuendType (mkDec 10 true) (mkDec 5 true) = mkDec 0 false := by
    rw [subToMinuendType]
    norm_num [mkDec, Angle.Abs, Angle.ToSpecificType, Angle.ToDecimal]
    rw [subToMinuendType]
    norm_num [mkDec, Angle.Abs, Angle.ToSpecificType, Angle.ToDecimal]
    rw [subToDecimalType]
    norm_num [decOf, Angle.GreatherThan, Angle.val, Angle.ToDecimal]
  refine ⟨h, ?_⟩
  rw [h]
  norm_num [Angle.val, mkDec]

instance : DecidableEq (Except Err Angle) := fun x y =>
  match x, y with
  | .ok a, .ok b =>
    if h : a = b then isTrue (by rw [h]) else isFalse (by simp [h])
  | .error a, .error b =>
    if h : a = b then isTrue (by rw [h]) else isFalse (by simp [h])
  | .ok _, .error _ => isFalse (by simp)
  | .error _, .ok _ => isFalse (by simp)

/-! ### Claim C3 — the negative sign is absorbed into the parsed field -/

/-- C3 (failing input): scanning the text `-10°` leaves the `neg` flag
`false` and stores `−10` in the degree field (and, through the unconditional
second-field unmarshal, in the second field): the minus rune is not one of
the three field symbols, so it is buffered before the negative-sign test can
ever run, and the sign is absorbed into the JSON number. -/
theorem claim_C3_negative_sign_not_recorded :
    scanByString angleZero ("-10°".toList) =
      Except.ok ⟨-10, 0, -10, false, .Decimal⟩ := by
  decide

/-! ### Claim C9 — degree-only text populates the second field too -/

/-- C9 (failing input): scanning the degree-only text `10°` tags the angle
decimal but leaves `second = 10`, not `0`: `fillBySymbol` unconditionally
unmarshals the buffered text into the second field after handling the degree
symbol. -/
theorem claim_C9_degree_only_text_fills_second :
    scanByString angleZero ("10°".toList) = Except.ok ⟨10, 0, 10, false, .Decimal⟩ ∧
    ∀ r : Angle, scanByString angleZero ("10°".toList) = Except.ok r → r.second ≠ 0 := by
  refine ⟨by decide, ?_⟩
  intro r hr
  have : r = ⟨10, 0, 10, false, .Decimal⟩ := by
    have h0 : scanByString angleZero ("10°".toList) = Except.ok ⟨10, 0, 10, false, .Decimal⟩ := by
      decide
    rw [h0] at hr
    exact (Except.ok.injEq _ _ ▸ hr.symm : _) ▸ rfl
  rw [this]
  norm_num

/-! ### Claim C6 — double borrow in DMS subtraction -/

/-- C6: `30°10'5" − 0°20'10" = 29°49'55"`; the borrow step first borrows one
minute into the seconds and one degree into the minutes (producing the
scratch triple `29°69'65"`), and the result is normalized with minute and
second in `[0, 60)`. -/
theorem claim_C6_dms_double_borrow :
    Angle.prepareMinuend (mkDMS 30 10 5 false) (mkDMS 0 20 10 false) = mkDMS 29 69 65 false ∧
    Angle.Sub (mkDMS 30 10 5 false) (mkDMS 0 20 10 false) = mkDMS 29 49 55 false ∧
    (0 ≤ (Angle.Sub (mkDMS 30 10 5 false) (mkDMS 0 20 10 false)).minute ∧
     (Angle.Sub (mkDMS 30 10 5 false) (mkDMS 0 20 10 false)).minute < 60 ∧
     0 ≤ (Angle.Sub (mkDMS 30 10 5 false) (mkDMS 0 20 10 false)).second ∧
     (Angle.Sub (mkDMS 30 10 5 false) (mkDMS 0 20 10 false)).second < 60) := by
  have hsub : Angle.Sub (mkDMS 30 10 5 false) (mkDMS 0 20 10 false) = mkDMS 29 49 55 false := by
    rw [Angle.Sub, subToMinuendType]
    norm_num [mkDMS]
    rw [subToMinuteSecondType]
    norm_num [dmsOf, mkDMS, Angle.GreatherThan, Angle.val, Angle.mag, Angle.prepareMinuend,
      takeForSub, Angle.prepareConvertMinuteSecond]
    exact fun h => nomatch h
  refine ⟨?_, hsub, ?_⟩
  · norm_num [mkDMS, Angle.prepareMinuend, takeForSub]
  · rw [hsub]
    norm_num [mkDMS]

/-! ### Claim C4 — zero start date: validation error versus silent default -/

/-- A periodical whose range is the single supplied day, the simplest
instance of the external enumeration's `GetDateRange` contract. -/
def dailyPeriodical : Periodical := ⟨fun d => (d, d)⟩

/-- A configuration with every field at its zero value. -/
def optZero : Opt :=
  ⟨timeZero, timeZero, dailyPeriodical, angleZero, angleZero, none, angleZero, angleZero, 0, none⟩

/-- C4 (counterexample): `SetPeriodical` called on a configuration whose
start date is the zero value does not report anything — it silently
substitutes the current time (here the instant `1`) for the start date, so
the program does not "never silently substitute a default date". -/
theorem claim_C4_counterexample_set_periodical_defaults :
    (optZero.SetPeriodical 1 dailyPeriodical).dateStart = 1 ∧ (1 : Time) ≠ timeZero := by
  constructor
  · rfl
  · decide

/-- C4 (amended): `ValidateBySalat` reports `MissingDate` whenever the start
date is the zero value, leaving the configuration untouched and defaulting
nothing; `SetPeriodical`, however, silently replaces a zero start date with
the current time before deriving the period's range. -/
theorem claim_C4_amended_zero_date :
    (∀ (o : Opt) (s : Salat), o.dateStart = timeZero →
        o.ValidateBySalat s = (o, some Err.DateMissing)) ∧
    (∀ (o : Opt) (now : Time) (p : Periodical), o.dateStart = timeZero →
        o.SetPeriodical now p = Opt.SetDatePeriodical { o with dateStart := now } now p) := by
  constructor
  · intro o s h
    unfold Opt.ValidateBySalat
    rw [if_pos h]
  · intro o now p h
    unfold Opt.SetPeriodical
    rw [if_pos h]

/-- Closed witness for the amended C4 statement: both parts applied to the
all-zero configuration. -/
theorem claim_C4_amended_zero_date_witness :
    optZero.ValidateBySalat Salat.Dhuhr = (optZero, some Err.DateMissing) ∧
    optZero.SetPeriodical 1 dailyPeriodical =
      Opt.SetDatePeriodical { optZero with dateStart := 1 } 1 dailyPeriodical :=
  ⟨claim_C4_amended_zero_date.1 optZero Salat.Dhuhr rfl,
   claim_C4_amended_zero_date.2 optZero 1 dailyPeriodical rfl⟩

/-! ### Claim C5 — mixed-sign addition and the representation it is carried out in -/

/-- C5 (counterexample): adding `−10°` (decimal) and `15°0'0"` (DMS) yields
the correct value `5` but in the `Decimal` representation — the negative
operand's, not the positive operand's as the claim states. -/
theorem claim_C5_counterexample_positive_representation :
    Angle.Add (mkDec 10 true) (mkDMS 15 0 0 false) = mkDec 5 false ∧
    (Angle.Add (mkDec 10 true) (mkDMS 15 0 0 false)).angType ≠
      (mkDMS 15 0 0 false).angType := by
  have hne : (AngleType.DegreeMinuteSecond = AngleType.Decimal) = False :=
    eq_false (fun h => nomatch h)
  have h : Angle.Add (mkDec 10 true) (mkDMS 15 0 0 false) = mkDec 5 false := by
    rw [Angle.Add, addToAugendType]
    norm_num [hne, mkDec, mkDMS, Angle.Abs, Angle.ToSpecificType, Angle.ToDecimal, Angle.mag]
    rw [subToMinuendType]
    norm_num [hne, mkDec]
    rw [subToDecimalType]
    norm_num [hne, decOf, Angle.GreatherThan, Angle.val, Angle.ToDecimal, mkDec]
  refine ⟨h, ?_⟩
  rw [h]
  decide

/-- C5 (amended): a mixed-sign addition is computed as a subtraction of
absolute values carried out in the *negative* operand's representation (the
positive operand is coerced to it, and the subtraction routines leave the
result in the subtrahend's representation), yielding the signed difference;
concretely `−10° + 15° = 5°` and `−10° + (−5°) = −15°`. -/
theorem claim_C5_amended_mixed_sign_addition :
    (∀ a b : Angle, a.neg = true → b.neg = false →
        Angle.Add a b = Angle.Sub (b.ToSpecificType a.angType) a.Abs) ∧
    (∀ a b : Angle, a.neg = false → b.neg = true →
        Angle.Add a b = Angle.Sub a b.Abs) ∧
    (∀ a b : Angle, a.neg = false → b.neg = false →
        (Angle.Sub a b).angType = b.angType) ∧
    Angle.Add (mkDec 10 true) (mkDec 15 false) = mkDec 5 false ∧
    Angle.Add (mkDec 10 true) (mkDec 5 true) = mkDec 15 true := by
  refine ⟨?_, ?_, ?_, ?_, ?_⟩
  · intro a b ha hb
    rw [Angle.Add, Angle.Sub, addToAugendType]
    simp [ha, hb]
  · intro a b ha hb
    rw [Angle.Add, Angle.Sub, addToAugendType]
    simp [ha, hb]
  · intro a b ha hb
    rw [Angle.Sub, subToMinuendType]
    simp only [ha, hb, Bool.and_self, Bool.false_eq_true, dite_false, dif_neg]
    by_cases hd : b.angType = .Decimal
    · rw [if_pos hd, angType_subToDecimalType, hd]
    · rw [if_neg hd, angType_subToMinuteSecondType]
      cases hb2 : b.angType
      · exact absurd hb2 hd
      · rfl
  · rw [Angle.Add, addToAugendType]
    norm_num [mkDec, Angle.Abs, Angle.ToSpecificType, Angle.ToDecimal]
    rw [subToMinuendType]
    norm_num [mkDec]
    rw [subToDecimalType]
    norm_num [decOf, Angle.GreatherThan, Angle.val, Angle.ToDecimal, mkDec]
  · rw [Angle.Add, addToAugendType]
    norm_num [mkDec, Angle.Abs, Angle.Neg]
    rw [addToAugendType]
    norm_num [mkDec, Angle.Abs, addToDecimalType, Angle.Neg]

/-- Closed witness for the amended C5 statement: the first part applied to
the mixed-representation pair `−10°` (decimal) and `15°0'0"` (DMS). -/
theorem claim_C5_amended_mixed_sign_addition_witness :
    Angle.Add (mkDec 10 true) (mkDMS 15 0 0 false) =
      Angle.Sub ((mkDMS 15 0 0 false).ToSpecificType (mkDec 10 true).angType)
        (mkDec 10 true).Abs :=
  claim_C5_amended_mixed_sign_addition.1 (mkDec 10 true) (mkDMS 15 0 0 false) rfl rfl

/-! ### Claims C7 and C10 — ValidateBySalat -/

/-- `ValidateBySalat` past its three always-run presence checks: with the
date, latitude and longitude checks passing, validation proceeds with the
longitude coerced and the timezone defaulted, then runs the per-salat
checks. -/
theorem Opt.validateBySalat_unfold (o : Opt) (s : Salat) (h1 : o.dateStart ≠ timeZero)
    (h2 : o.latitude.IsZero = false) (h3 : o.longitude.IsZero = false) :
    o.ValidateBySalat s =
      (let o' := if o.latitude.angType ≠ o.longitude.angType
                 then { o with longitude := o.longitude.ToSpecificType o.latitude.angType }
                 else o
       let o'' := if o'.timezoneLoc = none then { o' with timezoneLoc := some Loc.UTC } else o'
       if o''.fajrZenith.IsZero ∧ s = .Fajr then (o'', some Err.FajrZenithMissing)
       else if o''.ishaZenith.IsZero ∧ s = .Isha then (o'', some Err.IshaZenithMissing)
       else if o''.mazhab = 0 ∧ s = .Asr then (o'', some Err.MazhabMissing)
       else (o'', none)) := by
  unfold Opt.ValidateBySalat
  rw [if_neg h1, if_neg (by simp [h2]), if_neg (by simp [h3])]

/-- `ValidateBySalat`'s reported error past the three presence checks: the
coercion and timezone default do not touch the zenith or mazhab fields, so
the error depends only on the original configuration. -/
theorem Opt.validateBySalat_snd (o : Opt) (s : Salat) (h1 : o.dateStart ≠ timeZero)
    (h2 : o.latitude.IsZero = false) (h3 : o.longitude.IsZero = false) :
    (o.ValidateBySalat s).2 =
      (if o.fajrZenith.IsZero ∧ s = .Fajr then some Err.FajrZenithMissing
       else if o.ishaZenith.IsZero ∧ s = .Isha then some Err.IshaZenithMissing
       else if o.mazhab = 0 ∧ s = .Asr then some Err.MazhabMissing
       else none) := by
  rw [Opt.validateBySalat_unfold o s h1 h2 h3]
  by_cases hrep : o.latitude.angType ≠ o.longitude.angType <;>
    by_cases htz : o.timezoneLoc = none <;>
      simp only [hrep, htz, if_true, if_false, ite_true, ite_false, not_true, not_false_iff] <;>
      split_ifs <;> simp_all

/-- C7: with the date set and latitude and longitude non-zero, requesting Asr
with no mazhab configured fails with `MazhabMissing`; requesting Dhuhr
succeeds; a Fajr (resp. Isha) zenith is required exactly when solving Fajr
(resp. Isha), and the corresponding error is never reported for any other
salat. -/
theorem claim_C7_validate_by_salat_requirements :
    ∀ o : Opt, o.dateStart ≠ timeZero → o.latitude.IsZero = false →
      o.longitude.IsZero = false →
      ((o.mazhab = 0 → (o.ValidateBySalat .Asr).2 = some Err.MazhabMissing) ∧
       (o.ValidateBySalat .Dhuhr).2 = none ∧
       (o.fajrZenith.IsZero = true → (o.ValidateBySalat .Fajr).2 = some Err.FajrZenithMissing) ∧
       (o.ishaZenith.IsZero = true → (o.ValidateBySalat .Isha).2 = some Err.IshaZenithMissing) ∧
       (∀ s : Salat, s ≠ .Fajr → (o.ValidateBySalat s).2 ≠ some Err.FajrZenithMissing) ∧
       (∀ s : Salat, s ≠ .Isha → (o.ValidateBySalat s).2 ≠ some Err.IshaZenithMissing)) := by
  intro o h1 h2 h3
  refine ⟨?_, ?_, ?_, ?_, ?_, ?_⟩
  · intro hm
    rw [Opt.validateBySalat_snd o _ h1 h2 h3]
    split_ifs <;> simp_all
  · rw [Opt.validateBySalat_snd o _ h1 h2 h3]
    split_ifs <;> simp_all
  · intro hf
    rw [Opt.validateBySalat_snd o _ h1 h2 h3]
    split_ifs <;> simp_all
  · intro hi
    rw [Opt.validateBySalat_snd o _ h1 h2 h3]
    split_ifs <;> simp_all
  · intro s hs
    rw [Opt.validateBySalat_snd o _ h1 h2 h3]
    split_ifs <;> simp_all
  · intro s hs
    rw [Opt.validateBySalat_snd o _ h1 h2 h3]
    split_ifs <;> simp_all

/-- A concrete configuration with date, latitude and longitude set (the
latitude in DMS representation, the longitude decimal), no timezone, no
zeniths and no mazhab. -/
def optMixed : Opt :=
  ⟨1, 1, dailyPeriodical, mkDMS 21 25 0 false, mkDec 39 false, none, angleZero, angleZero, 0, none⟩

theorem optMixed_latitude_nonzero : optMixed.latitude.IsZero = false := by
  norm_num [optMixed, Angle.IsZero, Angle.val, Angle.mag, mkDMS, decide_eq_false_iff_not]

theorem optMixed_longitude_nonzero : optMixed.longitude.IsZero = false := by
  norm_num [optMixed, Angle.IsZero, Angle.val, Angle.mag, mkDec, decide_eq_false_iff_not]

/-- Closed witness for C7: the concrete configuration `optMixed`. -/
theorem claim_C7_validate_by_salat_requirements_witness :
    (optMixed.ValidateBySalat .Asr).2 = some Err.MazhabMissing ∧
    (optMixed.ValidateBySalat .Dhuhr).2 = none :=
  ⟨(claim_C7_validate_by_salat_requirements optMixed (by decide)
      optMixed_latitude_nonzero optMixed_longitude_nonzero).1 rfl,
   (claim_C7_validate_by_salat_requirements optMixed (by decide)
      optMixed_latitude_nonzero optMixed_longitude_nonzero).2.1⟩

/-- C10: when the three presence checks pass, `ValidateBySalat` mutates the
configuration before the zenith and mazhab checks run — the longitude is
coerced to the latitude's representation and a nil timezone is replaced by
UTC — so a call failing with `MazhabMissing` still returns a changed
configuration, and an unset timezone never changes the reported error. -/
theorem claim_C10_validate_mutates_even_on_failure :
    ∀ o : Opt, o.dateStart ≠ timeZero → o.latitude.IsZero = false →
      o.longitude.IsZero = false → o.timezoneLoc = none → o.mazhab = 0 →
      o.latitude.angType ≠ o.longitude.angType →
      ((o.ValidateBySalat .Asr).2 = some Err.MazhabMissing ∧
       (o.ValidateBySalat .Asr).1.timezoneLoc = some Loc.UTC ∧
       (o.ValidateBySalat .Asr).1.longitude = o.longitude.ToSpecificType o.latitude.angType ∧
       (∀ s : Salat,
         (({ o with timezoneLoc := some Loc.UTC } : Opt).ValidateBySalat s).2 =
           (o.ValidateBySalat s).2)) := by
  intro o h1 h2 h3 htz hm hrep
  have hval := Opt.validateBySalat_unfold o .Asr h1 h2 h3
  simp only [hrep, htz, not_false_iff, not_false_eq_true, if_true, ite_true,
    eq_self_iff_true, Option.some_ne_none] at hval
  refine ⟨?_, ?_, ?_, ?_⟩
  · rw [hval]
    split_ifs <;> simp_all
  · rw [hval]
    split_ifs <;> simp_all
  · rw [hval]
    split_ifs <;> simp_all
  · intro s
    have hA := Opt.validateBySalat_unfold ({ o with timezoneLoc := some Loc.UTC } : Opt) s
      h1 h2 h3
    have hB := Opt.validateBySalat_unfold o s h1 h2 h3
    simp only [hrep, htz, not_false_iff, not_false_eq_true, if_true, ite_true,
      eq_self_iff_true, Option.some_ne_none, if_false, ite_false, reduceCtorEq] at hA hB
    rw [hA, hB]
    split_ifs <;> simp_all

/-- Closed witness for C10: the concrete configuration `optMixed` (DMS
latitude, decimal longitude, nil timezone, no mazhab), validated for Asr. -/
theorem claim_C10_validate_mutates_even_on_failure_witness :
    (optMixed.ValidateBySalat .Asr).2 = some Err.MazhabMissing ∧
    (optMixed.ValidateBySalat .Asr).1.timezoneLoc = some Loc.UTC :=
  ⟨(claim_C10_validate_mutates_even_on_failure optMixed (by decide)
      optMixed_latitude_nonzero optMixed_longitude_nonzero rfl rfl (by decide)).1,
   (claim_C10_validate_mutates_even_on_failure optMixed (by decide)
      optMixed_latitude_nonzero optMixed_longitude_nonzero rfl rfl (by decide)).2.1⟩

/-! ### Claim C8 — the sign dispatch and swap-negate recursion terminate -/

theorem Angle.mag_prepareMinuend (a a1 : Angle) : (a.prepareMinuend a1).mag = a.mag := by
  have h := Angle.val_prepareMinuend a a1
  rwa [Angle.val_eq_mag _ (Angle.neg_prepareMinuend a a1)
    (Angle.angType_prepareMinuend a a1)] at h

theorem dmsOf_prepareMinuend (a a1 : Angle) :
    dmsOf (a.prepareMinuend a1) = a.prepareMinuend a1 := by
  unfold dmsOf
  rw [Angle.angType_prepareMinuend]
  simp

/-- Fuel-bounded mirror of `subToDecimalType`: each recursive step consumes
one unit of fuel; `none` means the fuel ran out before the recursion
finished. -/
def subToDecimalTypeF : Nat → Angle → Angle → Option Angle
  | 0, _, _ => none
  | n + 1, a, a1 =>
    if (decOf a1).GreatherThan a then (subToDecimalTypeF n (decOf a1) a).map Angle.Neg
    else some ⟨|a.degree - (decOf a1).degree|, 0, 0, false, .Decimal⟩

/-- Fuel-bounded mirror of `subToMinuteSecondType`. -/
def subToMinuteSecondTypeF : Nat → Angle → Angle → Option Angle
  | 0, _, _ => none
  | n + 1, a, a1 =>
    if (dmsOf a1).GreatherThan (a.prepareMinuend (dmsOf a1)) then
      (subToMinuteSecondTypeF n (dmsOf a1) (a.prepareMinuend (dmsOf a1))).map Angle.Neg
    else
      some ((Angle.mk |(a.prepareMinuend (dmsOf a1)).degree - (dmsOf a1).degree|
          |(a.prepareMinuend (dmsOf a1)).minute - (dmsOf a1).minute|
          |(a.prepareMinuend (dmsOf a1)).second - (dmsOf a1).second|
          false .DegreeMinuteSecond).prepareConvertMinuteSecond)

mutual
/-- Fuel-bounded mirror of `addToAugendType`. -/
def addToAugendTypeF : Nat → Angle → Angle → Option Angle
  | 0, _, _ => none
  | n + 1, a, a1 =>
    if a.neg && a1.neg then (addToAugendTypeF n a.Abs a1.Abs).map Angle.Neg
    else if a.neg then subToMinuendTypeF n (a1.ToSpecificType a.angType) a.Abs
    else if a1.neg then subToMinuendTypeF n a a1.Abs
    else if a.angType = .Decimal then some (addToDecimalType a a1)
    else some (addToMinuteSecondType a a1)

/-- Fuel-bounded mirror of `subToMinuendType`. -/
def subToMinuendTypeF : Nat → Angle → Angle → Option Angle
  | 0, _, _ => none
  | n + 1, a, a1 =>
    if a.neg && a1.neg then subToMinuendTypeF n ((a1.Abs).ToSpecificType a.angType) a1.Abs
    else if a.neg then (addToAugendTypeF n a.Abs a1.Abs).map Angle.Neg
    else if a1.neg then addToAugendTypeF n a.Abs a1.Abs
    else if a1.angType = .Decimal then subToDecimalTypeF n a a1
    else subToMinuteSecondTypeF n a a1
end

/-- Two units of fuel always suffice for the decimal subtraction: after one
operand swap the swapped guard cannot hold again. -/
theorem subDecF_eq (n : Nat) (hn : 2 ≤ n) (a a1 : Angle) :
    subToDecimalTypeF n a a1 = some (subToDecimalType a a1) := by
  obtain ⟨k, rfl⟩ : ∃ k, n = k + 2 := ⟨n - 2, by omega⟩
  by_cases hg : (decOf a1).GreatherThan a = true
  · have hg2 : ¬ (decOf a).GreatherThan (decOf a1) = true := by
      simp only [Angle.GreatherThan, decide_eq_true_eq, val_decOf] at hg ⊢
      exact lt_asymm hg
    rw [subToDecimalType, dif_pos hg, subToDecimalType, dif_neg hg2]
    simp [subToDecimalTypeF, hg, hg2]
  · rw [subToDecimalType, dif_neg hg]
    simp [subToDecimalTypeF, hg]

/-- Three units of fuel always suffice for the DMS subtraction: after at most
two operand swaps the swapped guard cannot hold again, because borrowing
preserves the minuend's field sum. -/
theorem subMSF_eq (n : Nat) (hn : 3 ≤ n) (a a1 : Angle) :
    subToMinuteSecondTypeF n a a1 = some (subToMinuteSecondType a a1) := by
  obtain ⟨k, rfl⟩ : ∃ k, n = k + 3 := ⟨n - 3, by omega⟩
  by_cases hg1 : (dmsOf a1).GreatherThan (a.prepareMinuend (dmsOf a1)) = true
  · have hdmsA : dmsOf (a.prepareMinuend (dmsOf a1)) = a.prepareMinuend (dmsOf a1) :=
      dmsOf_prepareMinuend a (dmsOf a1)
    by_cases hg2 : (dmsOf (a.prepareMinuend (dmsOf a1))).GreatherThan
        ((dmsOf a1).prepareMinuend (dmsOf (a.prepareMinuend (dmsOf a1)))) = true
    · have hg3 : ¬ (dmsOf ((dmsOf a1).prepareMinuend
          (dmsOf (a.prepareMinuend (dmsOf a1))))).GreatherThan
          ((dmsOf (a.prepareMinuend (dmsOf a1))).prepareMinuend
            (dmsOf ((dmsOf a1).prepareMinuend (dmsOf (a.prepareMinuend (dmsOf a1)))))) =
          true := by
        rw [dmsOf_prepareMinuend, hdmsA]
        rw [hdmsA] at hg2
        simp only [Angle.GreatherThan, decide_eq_true_eq, Angle.val_prepareMinuend,
          Angle.mag_prepareMinuend] at hg2 ⊢
        exact lt_asymm hg2
      rw [subToMinuteSecondType, dif_pos hg1, subToMinuteSecondType, dif_pos hg2,
        subToMinuteSecondType, dif_neg hg3]
      simp [subToMinuteSecondTypeF, hg1, hg2, hg3]
    · rw [subToMinuteSecondType, dif_pos hg1, subToMinuteSecondType, dif_neg hg2]
      simp [subToMinuteSecondTypeF, hg1, hg2]
  · rw [subToMinuteSecondType, dif_neg hg1]
    simp [subToMinuteSecondTypeF, hg1]

/-- With both operands non-negative the addition dispatch performs no
recursion, so one unit of fuel suffices. -/
theorem addF_eq_of_nonneg (n : Nat) (hn : 1 ≤ n) (a a1 : Angle)
    (ha : a.neg = false) (h1 : a1.neg = false) :
    addToAugendTypeF n a a1 = some (addToAugendType a a1) := by
  obtain ⟨k, rfl⟩ : ∃ k, n = k + 1 := ⟨n - 1, by omega⟩
  rw [addToAugendType]
  simp only [addToAugendTypeF, ha, h1, Bool.and_self, Bool.false_eq_true, if_false,
    ite_false, dite_false]
  split_ifs <;> rfl

/-- With both operands non-negative the subtraction dispatch only calls the
representation routines, so four units of fuel suffice. -/
theorem subMF_eq_of_nonneg (n : Nat) (hn : 4 ≤ n) (a a1 : Angle)
    (ha : a.neg = false) (h1 : a1.neg = false) :
    subToMinuendTypeF n a a1 = some (subToMinuendType a a1) := by
  obtain ⟨k, rfl⟩ : ∃ k, n = k + 4 := ⟨n - 4, by omega⟩
  rw [subToMinuendType]
  simp only [subToMinuendTypeF, ha, h1, Bool.and_self, Bool.false_eq_true, if_false,
    ite_false, dite_false]
  by_cases hd : a1.angType = .Decimal
  · rw [if_pos hd, if_pos hd]
    exact subDecF_eq (k + 3) (by omega) a a1
  · rw [if_neg hd, if_neg hd]
    exact subMSF_eq (k + 3) (by omega) a a1

theorem addToAugendTypeF_succ (n : Nat) (a a1 : Angle) :
    addToAugendTypeF (n + 1) a a1 =
      (if a.neg && a1.neg then (addToAugendTypeF n a.Abs a1.Abs).map Angle.Neg
       else if a.neg then subToMinuendTypeF n (a1.ToSpecificType a.angType) a.Abs
       else if a1.neg then subToMinuendTypeF n a a1.Abs
       else if a.angType = .Decimal then some (addToDecimalType a a1)
       else some (addToMinuteSecondType a a1)) := rfl

theorem subToMinuendTypeF_succ (n : Nat) (a a1 : Angle) :
    subToMinuendTypeF (n + 1) a a1 =
      (if a.neg && a1.neg then subToMinuendTypeF n ((a1.Abs).ToSpecificType a.angType) a1.Abs
       else if a.neg then (addToAugendTypeF n a.Abs a1.Abs).map Angle.Neg
       else if a1.neg then addToAugendTypeF n a.Abs a1.Abs
       else if a1.angType = .Decimal then subToDecimalTypeF n a a1
       else subToMinuteSecondTypeF n a a1) := rfl

/-- C8: the sign dispatch of addition and subtraction, together with the
swap-and-negate recursion inside the subtraction routines, terminates on
every pair of operands â including equal magnitudes with opposite signs â
with recursion depth at most six: six units of fuel always reproduce the
functions' values. -/
theorem claim_C8_sign_dispatch_terminates :
    ∀ a a1 : Angle,
      addToAugendTypeF 6 a a1 = some (addToAugendType a a1) ∧
      subToMinuendTypeF 6 a a1 = some (subToMinuendType a a1) := by
  intro a a1
  constructor
  · cases ha : a.neg <;> cases h1 : a1.neg
    · exact addF_eq_of_nonneg 6 (by omega) a a1 ha h1
    · rw [addToAugendType, show (6 : Nat) = 5 + 1 from rfl, addToAugendTypeF_succ]
      simp only [ha, h1, Bool.and_self, Bool.false_and, Bool.and_false, Bool.and_true,
        Bool.true_and, Bool.false_eq_true, Bool.true_eq_false, if_false, ite_false,
        dite_false, if_true, ite_true, dite_true]
      exact subMF_eq_of_nonneg 5 (by omega) a a1.Abs ha rfl
    · rw [addToAugendType, show (6 : Nat) = 5 + 1 from rfl, addToAugendTypeF_succ]
      simp only [ha, h1, Bool.and_self, Bool.false_and, Bool.and_false, Bool.and_true,
        Bool.true_and, Bool.false_eq_true, Bool.true_eq_false, if_false, ite_false,
        dite_false, if_true, ite_true, dite_true]
      exact subMF_eq_of_nonneg 5 (by omega) (a1.ToSpecificType a.angType) a.Abs
        (by rw [Angle.neg_ToSpecificType, h1]) rfl
    · rw [addToAugendType, show (6 : Nat) = 5 + 1 from rfl, addToAugendTypeF_succ]
      simp only [ha, h1, Bool.and_self, Bool.false_eq_true, Bool.true_eq_false,
        if_true, ite_true, dite_true]
      rw [addF_eq_of_nonneg 5 (by omega) a.Abs a1.Abs rfl rfl]
      rfl
  · cases ha : a.neg <;> cases h1 : a1.neg
    · exact subMF_eq_of_nonneg 6 (by omega) a a1 ha h1
    · rw [subToMinuendType, show (6 : Nat) = 5 + 1 from rfl, subToMinuendTypeF_succ]
      simp only [ha, h1, Bool.and_self, Bool.false_and, Bool.and_false, Bool.and_true,
        Bool.true_and, Bool.false_eq_true, Bool.true_eq_false, if_false, ite_false,
        dite_false, if_true, ite_true, dite_true]
      exact addF_eq_of_nonneg 5 (by omega) a.Abs a1.Abs rfl rfl
    · rw [subToMinuendType, show (6 : Nat) = 5 + 1 from rfl, subToMinuendTypeF_succ]
      simp only [ha, h1, Bool.and_self, Bool.false_and, Bool.and_false, Bool.and_true,
        Bool.true_and, Bool.false_eq_true, Bool.true_eq_false, if_false, ite_false,
        dite_false, if_true, ite_true, dite_true]
      rw [addF_eq_of_nonneg 5 (by omega) a.Abs a1.Abs rfl rfl]
      rfl
    · rw [subToMinuendType, show (6 : Nat) = 5 + 1 from rfl, subToMinuendTypeF_succ]
      simp only [ha, h1, Bool.and_self, Bool.false_eq_true, Bool.true_eq_false,
        if_true, ite_true, dite_true]
      exact subMF_eq_of_nonneg 5 (by omega) ((a1.Abs).ToSpecificType a.angType) a1.Abs
        (by rw [Angle.neg_ToSpecificType]; rfl) rfl
